import Mathlib

/-!
Shallow embedding of `src/anomalib/core/model/anomaly_module.py`.

The file under verification is a thin lifecycle adapter (`AnomalyModule`)
over a training framework.  Scores and thresholds are modelled as rationals,
a batch-output dictionary as a structure with one optional field per key the
code touches (`pred_scores`, `anomaly_maps`, `pred_labels`) plus a `rest`
field standing for every other key.  Fallible operations (a missing key, a
`torch.max` over an empty map) return `Except`.

The collaborators the module calls into live outside the given source:
the results aggregators (`anomalib.core.results`) and the threshold helper
(`anomalib.utils.metrics.compute_threshold_and_f1_score`).  The aggregator
constructors are modelled from the spec; the opaque operations
(`store_outputs`, `evaluate`, the threshold helper) are taken as explicit
function parameters of the lifecycle hooks, so every theorem below holds
for an arbitrary implementation of them.
-/

set_option autoImplicit false

namespace Anomalib

/-- Modelled from the spec: the two results-aggregator types selected by the
task string (`ClassificationResults` / `SegmentationResults`), whose internal
structure is opaque to the module. -/
inductive ResultsKind where
  | classification
  | segmentation
deriving DecidableEq, Repr

/-- Modelled from the spec: a results aggregator.  It carries its kind, the
stored true labels and predicted scores the threshold helper consumes, and a
performance-metric mapping produced by `evaluate`. -/
structure Results where
  kind : ResultsKind
  true_labels : List Bool
  pred_scores : List ℚ
  performance : List (String × ℚ)
deriving DecidableEq, Repr

/-- Modelled from the spec: a freshly constructed classification aggregator. -/
def ClassificationResults : Results :=
  ⟨ResultsKind.classification, [], [], []⟩

/-- Modelled from the spec: a freshly constructed segmentation aggregator. -/
def SegmentationResults : Results :=
  ⟨ResultsKind.segmentation, [], [], []⟩

/-- A batch-output dictionary.  Each optional field models the presence of
the corresponding key; `rest` models every key the module never touches. -/
structure Outputs (ρ : Type) where
  pred_scores : Option (List ℚ)
  anomaly_maps : Option (List (List ℚ))
  pred_labels : Option (List Bool)
  rest : ρ
deriving DecidableEq, Repr

/-- The mutable state of an `AnomalyModule`: the adaptive flag, the scalar
threshold buffer and the results aggregator. -/
structure AnomalyModule where
  adaptive_threshold : Bool
  threshold : ℚ
  results : Results
deriving DecidableEq, Repr

/-- Failures `_post_process` can raise: the `KeyError` on a missing
`pred_scores` key, the error `torch.max` raises on an empty reduction
dimension, and the error `reshape(shape[0], -1)` raises on a 0-sample
tensor, where the `-1` dimension is ambiguous. -/
inductive PPError where
  | keyError
  | emptyMapError
  | reshapeError
deriving DecidableEq, Repr

/-- `AnomalyModule.__init__` (lines 31-57): selects the aggregator from the
task string, registers the threshold buffer, or raises `NotImplementedError`. -/
def init (task : String) (adaptive_threshold : Bool) (default_threshold : ℚ) :
    Except String AnomalyModule :=
  if task = "classification" then
    Except.ok ⟨adaptive_threshold, default_threshold, ClassificationResults⟩
  else if task = "segmentation" then
    Except.ok ⟨adaptive_threshold, default_threshold, SegmentationResults⟩
  else
    Except.error "Only Classification and Segmentation tasks are supported in this version."

/-- `tensor.max` over one sample's flattened anomaly map: `none` on an empty
map (where torch raises), otherwise the maximum element. -/
def listMax : List ℚ → Option ℚ
  | [] => none
  | x :: xs => some (xs.foldl max x)

/-- The `.max(axis=1).values` part of line 134 on the reshaped tensor: the
per-sample maxima, failing if a sample's row is empty (a reduction over a
zero-size dimension). -/
def rowMaxes : List (List ℚ) → Except PPError (List ℚ)
  | [] => Except.ok []
  | m :: rest =>
    match listMax m with
    | none => Except.error PPError.emptyMapError
    | some v => (rowMaxes rest).map (fun vs => v :: vs)

/-- `outputs["anomaly_maps"].reshape(shape[0], -1).max(axis=1).values`
(line 134).  On a 0-sample tensor the `reshape` itself raises (torch cannot
infer the `-1` dimension of a 0-element tensor when the known dimension is
0); otherwise the result is the per-sample maxima of the rows. -/
def sampleMaxes (maps : List (List ℚ)) : Except PPError (List ℚ) :=
  match maps with
  | [] => Except.error PPError.reshapeError
  | _ :: _ => rowMaxes maps

/-- First statement of `_post_process` (lines 132-135): when the
`pred_scores` key is absent and `anomaly_maps` is present, derive the scores
as the per-sample maxima; otherwise leave the outputs untouched. -/
def derive_scores {ρ : Type} (outputs : Outputs ρ) : Except PPError (Outputs ρ) :=
  match outputs.pred_scores, outputs.anomaly_maps with
  | none, some maps =>
    (sampleMaxes maps).map (fun scores => { outputs with pred_scores := some scores })
  | _, _ => Except.ok outputs

/-- `AnomalyModule._post_process` (lines 130-138): derive scores if needed,
then, when `predict_labels` is set, compare the scores against the threshold
(line 137); reading the absent `pred_scores` key there is a `KeyError`. -/
def _post_process {ρ : Type} (threshold : ℚ) (outputs : Outputs ρ)
    (predict_labels : Bool) : Except PPError (Outputs ρ) :=
  (derive_scores outputs).bind (fun o =>
    match predict_labels with
    | true =>
      match o.pred_scores with
      | some scores =>
        Except.ok { o with pred_labels := some (scores.map (fun x => decide (threshold ≤ x))) }
      | none => Except.error PPError.keyError
    | false => Except.ok o)

/-- `AnomalyModule.predict_step` (lines 70-84): post-process the validation
step's output with label prediction on.  The abstract `validation_step` is a
parameter `vstep`. -/
def predict_step {β ρ : Type} (vstep : β → Nat → Outputs ρ) (m : AnomalyModule)
    (batch : β) (batch_idx : Nat) : Except PPError (Outputs ρ) :=
  _post_process m.threshold (vstep batch batch_idx) true

/-- `AnomalyModule.test_step` (lines 86-97): exactly `validation_step`. -/
def test_step {β ρ : Type} (vstep : β → Nat → Outputs ρ) (m : AnomalyModule)
    (batch : β) (batch_idx : Nat) : Outputs ρ :=
  vstep batch batch_idx

/-- `AnomalyModule.validation_step_end` (lines 99-101). -/
def validation_step_end {ρ : Type} (m : AnomalyModule) (val_step_outputs : Outputs ρ) :
    Except PPError (Outputs ρ) :=
  _post_process m.threshold val_step_outputs false

/-- `AnomalyModule.test_step_end` (lines 103-105). -/
def test_step_end {ρ : Type} (m : AnomalyModule) (test_step_outputs : Outputs ρ) :
    Except PPError (Outputs ρ) :=
  _post_process m.threshold test_step_outputs false

/-- `AnomalyModule._log_metrics` (lines 140-143): the (name, value) pairs
handed to the framework logger. -/
def _log_metrics (results : Results) : List (String × ℚ) :=
  results.performance

/-- `AnomalyModule.validation_epoch_end` (lines 107-118).  The opaque
collaborators are parameters: `store_outputs` and `evaluate` of the results
aggregator, and the threshold helper `ctf` (`compute_threshold_and_f1_score`).
Returns the updated module state and the logged metrics. -/
def validation_epoch_end {ρ : Type}
    (store_outputs : Results → List (Outputs ρ) → Results)
    (ctf : List Bool → List ℚ → ℚ × ℚ)
    (evaluate : Results → ℚ → Results)
    (m : AnomalyModule) (outputs : List (Outputs ρ)) :
    AnomalyModule × List (String × ℚ) :=
  let stored := store_outputs m.results outputs
  let threshold :=
    if m.adaptive_threshold then (ctf stored.true_labels stored.pred_scores).1
    else m.threshold
  let evaluated := evaluate stored threshold
  (⟨m.adaptive_threshold, threshold, evaluated⟩, _log_metrics evaluated)

/-- `AnomalyModule.test_epoch_end` (lines 120-128): store, evaluate at the
current threshold, log; the threshold buffer is never written. -/
def test_epoch_end {ρ : Type}
    (store_outputs : Results → List (Outputs ρ) → Results)
    (evaluate : Results → ℚ → Results)
    (m : AnomalyModule) (outputs : List (Outputs ρ)) :
    AnomalyModule × List (String × ℚ) :=
  let stored := store_outputs m.results outputs
  let evaluated := evaluate stored m.threshold
  (⟨m.adaptive_threshold, m.threshold, evaluated⟩, _log_metrics evaluated)

/-! ### Helper lemmas about maxima of lists -/

theorem foldl_max_le (xs : List ℚ) (a : ℚ) : a ≤ xs.foldl max a := by
  induction xs generalizing a with
  | nil => simp
  | cons x xs ih => exact le_trans (le_max_left a x) (ih (max a x))

theorem le_foldl_max_of_mem {xs : List ℚ} {y : ℚ} (h : y ∈ xs) (a : ℚ) :
    y ≤ xs.foldl max a := by
  induction xs generalizing a with
  | nil => cases h
  | cons x xs ih =>
    rcases List.mem_cons.mp h with rfl | h2
    · exact le_trans (le_max_right a y) (foldl_max_le xs (max a y))
    · exact ih h2 (max a x)

theorem foldl_max_mem (xs : List ℚ) (a : ℚ) :
    xs.foldl max a = a ∨ xs.foldl max a ∈ xs := by
  induction xs generalizing a with
  | nil => exact Or.inl rfl
  | cons x xs ih =>
    rcases ih (max a x) with h | h
    · rcases max_choice a x with h2 | h2
      · exact Or.inl (by rw [List.foldl_cons, h, h2])
      · refine Or.inr ?_
        rw [List.foldl_cons, h, h2]
        exact List.mem_cons_self x xs
    · exact Or.inr (List.mem_cons_of_mem x h)

/-- `listMax` really computes the maximum: the value is an element of the
list and bounds every element. -/
theorem listMax_spec {m : List ℚ} {v : ℚ} (h : listMax m = some v) :
    v ∈ m ∧ ∀ y ∈ m, y ≤ v := by
  cases m with
  | nil => simp [listMax] at h
  | cons x xs =>
    have hv : v = xs.foldl max x := by
      simpa [listMax] using h.symm
    subst hv
    constructor
    · rcases foldl_max_mem xs x with h2 | h2
      · rw [h2]; exact List.mem_cons_self x xs
      · exact List.mem_cons_of_mem x h2
    · intro y hy
      rcases List.mem_cons.mp hy with rfl | hy2
      · exact foldl_max_le xs y
      · exact le_foldl_max_of_mem hy2 x

/-- When `rowMaxes` succeeds, it returns exactly the per-row maxima. -/
theorem rowMaxes_ok {maps : List (List ℚ)} {scores : List ℚ}
    (h : rowMaxes maps = Except.ok scores) :
    List.Forall₂ (fun m v => listMax m = some v) maps scores := by
  induction maps generalizing scores with
  | nil =>
    simp only [rowMaxes] at h
    cases h
    exact List.Forall₂.nil
  | cons m rest ih =>
    simp only [rowMaxes] at h
    cases hm : listMax m with
    | none => rw [hm] at h; cases h
    | some v =>
      rw [hm] at h
      cases hrest : rowMaxes rest with
      | error e => rw [hrest] at h; cases h
      | ok vs =>
        rw [hrest] at h
        simp only [Except.map] at h
        cases h
        exact List.Forall₂.cons hm (ih hrest)

/-- When `sampleMaxes` succeeds, it returns exactly the per-sample maxima
(and the batch was necessarily nonempty, or `reshape` would have raised). -/
theorem sampleMaxes_ok {maps : List (List ℚ)} {scores : List ℚ}
    (h : sampleMaxes maps = Except.ok scores) :
    List.Forall₂ (fun m v => listMax m = some v) maps scores := by
  cases maps with
  | nil => cases h
  | cons m rest => exact rowMaxes_ok h

/-! ### Shape of `derive_scores` results -/

/-- `derive_scores` succeeds either by leaving the outputs untouched or by
filling in the `pred_scores` key, and it never touches any other key. -/
theorem derive_scores_ok {ρ : Type} {o out : Outputs ρ}
    (h : derive_scores o = Except.ok out) :
    out.anomaly_maps = o.anomaly_maps ∧ out.pred_labels = o.pred_labels ∧
      out.rest = o.rest ∧
      (∀ s, o.pred_scores = some s → out.pred_scores = some s) := by
  obtain ⟨ps, am, pls, r⟩ := o
  cases ps with
  | some s =>
    simp only [derive_scores] at h
    cases h
    exact ⟨rfl, rfl, rfl, fun s2 hs2 => hs2⟩
  | none =>
    cases am with
    | none =>
      simp only [derive_scores] at h
      cases h
      exact ⟨rfl, rfl, rfl, fun s2 hs2 => by cases hs2⟩
    | some maps =>
      simp only [derive_scores] at h
      cases hsm : sampleMaxes maps with
      | error e => rw [hsm] at h; cases h
      | ok scores =>
        rw [hsm] at h
        simp only [Except.map] at h
        cases h
        exact ⟨rfl, rfl, rfl, fun s2 hs2 => by cases hs2⟩

/-- The only error `rowMaxes` can raise is the empty-map error. -/
theorem rowMaxes_error {maps : List (List ℚ)} {e : PPError}
    (h : rowMaxes maps = Except.error e) : e = PPError.emptyMapError := by
  induction maps with
  | nil => cases h
  | cons m rest ih =>
    simp only [rowMaxes] at h
    cases hm : listMax m with
    | none =>
      rw [hm] at h
      cases h
      rfl
    | some v =>
      rw [hm] at h
      cases hrest : rowMaxes rest with
      | error e2 =>
        rw [hrest] at h
        simp only [Except.map] at h
        cases h
        exact ih hrest
      | ok vs =>
        rw [hrest] at h
        simp only [Except.map] at h
        cases h

/-- `sampleMaxes` fails only with the reshape error (empty batch) or the
empty-map error (empty rows); never with the `KeyError`. -/
theorem sampleMaxes_error {maps : List (List ℚ)} {e : PPError}
    (h : sampleMaxes maps = Except.error e) : e ≠ PPError.keyError := by
  cases maps with
  | nil =>
    cases h
    exact fun hc => PPError.noConfusion hc
  | cons m rest =>
    rw [rowMaxes_error h]
    exact fun hc => PPError.noConfusion hc

/-- Evaluation of `derive_scores` on the missing-scores, present-maps shape. -/
theorem derive_scores_none_some {ρ : Type} (am : List (List ℚ))
    (pls : Option (List Bool)) (r : ρ) :
    derive_scores (Outputs.mk none (some am) pls r) =
      (sampleMaxes am).map
        (fun scores => Outputs.mk (some scores) (some am) pls r) :=
  rfl

/-- Shape of a successful `_post_process` run with label prediction on: the
result carries scores, and its labels are exactly the scores compared
against the threshold. -/
theorem _post_process_true_ok {ρ : Type} {t : ℚ} {o out : Outputs ρ}
    (h : _post_process t o true = Except.ok out) :
    ∃ scores, out.pred_scores = some scores ∧
      out.pred_labels = some (scores.map (fun x => decide (t ≤ x))) := by
  unfold _post_process at h
  cases hd : derive_scores o with
  | error e => rw [hd] at h; cases h
  | ok o2 =>
    rw [hd] at h
    simp only [Except.bind] at h
    cases hps : o2.pred_scores with
    | none => rw [hps] at h; cases h
    | some scores =>
      rw [hps] at h
      cases h
      exact ⟨scores, rfl, rfl⟩

/-- Frame property of `_post_process`: a successful run leaves the
`anomaly_maps` key, every untouched key (`rest`) and any already-present
`pred_scores` value intact. -/
theorem _post_process_frame {ρ : Type} {t : ℚ} {o out : Outputs ρ} {pl : Bool}
    (h : _post_process t o pl = Except.ok out) :
    out.anomaly_maps = o.anomaly_maps ∧ out.rest = o.rest ∧
      (∀ s, o.pred_scores = some s → out.pred_scores = some s) := by
  unfold _post_process at h
  cases hd : derive_scores o with
  | error e => rw [hd] at h; cases h
  | ok o2 =>
    rw [hd] at h
    obtain ⟨ham, hpl, hrest, hps⟩ := derive_scores_ok hd
    simp only [Except.bind] at h
    cases pl with
    | false =>
      cases h
      exact ⟨ham, hrest, hps⟩
    | true =>
      cases hps2 : o2.pred_scores with
      | none => rw [hps2] at h; cases h
      | some scores =>
        rw [hps2] at h
        cases h
        exact ⟨ham, hrest, fun s hs => hps2.symm.trans (hps s hs)⟩

/-! ### Claims -/

/-- C1: in adaptive-threshold mode, after `validation_epoch_end` the
module's threshold equals the first component (the scalar threshold) of
`compute_threshold_and_f1_score` applied to the aggregator's stored true
labels and predicted scores; the F1 component is discarded.  This holds for
every implementation `ctf` of the helper and `store` / `ev` of the opaque
aggregator operations. -/
theorem C1_adaptive_threshold_from_helper {ρ : Type}
    (store : Results → List (Outputs ρ) → Results)
    (ctf : List Bool → List ℚ → ℚ × ℚ)
    (ev : Results → ℚ → Results)
    (m : AnomalyModule) (outputs : List (Outputs ρ))
    (h : m.adaptive_threshold = true) :
    (validation_epoch_end store ctf ev m outputs).1.threshold =
      (ctf (store m.results outputs).true_labels
        (store m.results outputs).pred_scores).1 := by
  simp [validation_epoch_end, h]

theorem C1_witness :
    (validation_epoch_end (fun r (_ : List (Outputs Unit)) => r)
        (fun _ _ => ((7 : ℚ), (1 : ℚ))) (fun r _ => r)
        ⟨true, 0, ClassificationResults⟩ []).1.threshold = 7 :=
  (C1_adaptive_threshold_from_helper (fun r _ => r) (fun _ _ => ((7 : ℚ), (1 : ℚ)))
    (fun r _ => r) ⟨true, 0, ClassificationResults⟩ [] rfl).trans rfl

/-- C2: with adaptive-threshold mode off, `validation_epoch_end` leaves the
threshold exactly as it was, for every implementation of the opaque
collaborators and every list of outputs. -/
theorem C2_threshold_unchanged_nonadaptive {ρ : Type}
    (store : Results → List (Outputs ρ) → Results)
    (ctf : List Bool → List ℚ → ℚ × ℚ)
    (ev : Results → ℚ → Results)
    (m : AnomalyModule) (outputs : List (Outputs ρ))
    (h : m.adaptive_threshold = false) :
    (validation_epoch_end store ctf ev m outputs).1.threshold = m.threshold := by
  simp [validation_epoch_end, h]

theorem C2_witness :
    (validation_epoch_end (fun r (_ : List (Outputs Unit)) => r)
        (fun _ _ => ((7 : ℚ), (1 : ℚ))) (fun r _ => r)
        ⟨false, 3, SegmentationResults⟩ []).1.threshold = 3 :=
  C2_threshold_unchanged_nonadaptive (fun r _ => r) (fun _ _ => ((7 : ℚ), (1 : ℚ)))
    (fun r _ => r) ⟨false, 3, SegmentationResults⟩ [] rfl

/-- C5: constructing an `AnomalyModule` with a task string other than
`classification` or `segmentation` raises `NotImplementedError`;
construction never succeeds with an unrecognized task string. -/
theorem C5_unknown_task_fails (task : String) (adaptive_threshold : Bool)
    (default_threshold : ℚ)
    (h1 : task ≠ "classification") (h2 : task ≠ "segmentation") :
    init task adaptive_threshold default_threshold =
      Except.error
        "Only Classification and Segmentation tasks are supported in this version." := by
  simp [init, h1, h2]

theorem C5_witness :
    init "detection" true 0 =
      Except.error
        "Only Classification and Segmentation tasks are supported in this version." :=
  C5_unknown_task_fails "detection" true 0 (by decide) (by decide)

/-- C6: constructing with task `classification` sets the results aggregator
to a `ClassificationResults` instance, and constructing with task
`segmentation` sets it to a `SegmentationResults` instance. -/
theorem C6_task_selects_aggregator (a : Bool) (d : ℚ) :
    (∃ m, init "classification" a d = Except.ok m ∧
      m.results = ClassificationResults ∧
      m.results.kind = ResultsKind.classification) ∧
    (∃ m, init "segmentation" a d = Except.ok m ∧
      m.results = SegmentationResults ∧
      m.results.kind = ResultsKind.segmentation) :=
  ⟨⟨⟨a, d, ClassificationResults⟩, rfl, rfl, rfl⟩,
   ⟨⟨a, d, SegmentationResults⟩, rfl, rfl, rfl⟩⟩

/-- C7: the scalar threshold is written at most once per validation epoch
and only in adaptive mode: `test_epoch_end` never modifies it, and
`validation_epoch_end` leaves it unchanged whenever adaptive mode is off. -/
theorem C7_threshold_write_discipline {ρ : Type}
    (store : Results → List (Outputs ρ) → Results)
    (ctf : List Bool → List ℚ → ℚ × ℚ)
    (ev : Results → ℚ → Results)
    (m : AnomalyModule) (outputs : List (Outputs ρ)) :
    (test_epoch_end store ev m outputs).1.threshold = m.threshold ∧
    (m.adaptive_threshold = false →
      (validation_epoch_end store ctf ev m outputs).1.threshold = m.threshold) := by
  refine ⟨rfl, fun h => ?_⟩
  simp [validation_epoch_end, h]

theorem C7_witness :
    (test_epoch_end (fun r (_ : List (Outputs Unit)) => r) (fun r _ => r)
        ⟨true, 5, ClassificationResults⟩ []).1.threshold = 5 ∧
    (validation_epoch_end (fun r (_ : List (Outputs Unit)) => r)
        (fun _ _ => ((7 : ℚ), (1 : ℚ))) (fun r _ => r)
        ⟨false, 5, ClassificationResults⟩ []).1.threshold = 5 :=
  ⟨(C7_threshold_write_discipline (fun r _ => r) (fun _ _ => ((7 : ℚ), (1 : ℚ)))
      (fun r _ => r) ⟨true, 5, ClassificationResults⟩ []).1,
   (C7_threshold_write_discipline (fun r _ => r) (fun _ _ => ((7 : ℚ), (1 : ℚ)))
      (fun r _ => r) ⟨false, 5, ClassificationResults⟩ []).2 rfl⟩

/-- C9: `test_step` returns exactly the value of `validation_step` with no
post-processing at the step stage; post-processing happens only in
`validation_step_end` / `test_step_end`, which both apply the same
`_post_process` without label prediction. -/
theorem C9_test_step_is_validation_step {β ρ : Type}
    (vstep : β → Nat → Outputs ρ) (m : AnomalyModule)
    (batch : β) (batch_idx : Nat) (o : Outputs ρ) :
    test_step vstep m batch batch_idx = vstep batch batch_idx ∧
    validation_step_end m o = _post_process m.threshold o false ∧
    test_step_end m o = validation_step_end m o :=
  ⟨rfl, rfl, rfl⟩

/-- C3: on the predict path (`predict_step`, i.e. `_post_process` with
`predict_labels` on), whenever the step succeeds the resulting labels are
exactly the predicted scores compared against the module's current
threshold: label `i` is true iff score `i` is at least the threshold. -/
theorem C3_predict_labels_ge_threshold {β ρ : Type}
    (vstep : β → Nat → Outputs ρ) (m : AnomalyModule)
    (batch : β) (batch_idx : Nat) (out : Outputs ρ)
    (h : predict_step vstep m batch batch_idx = Except.ok out) :
    ∃ scores, out.pred_scores = some scores ∧
      out.pred_labels = some (scores.map (fun x => decide (m.threshold ≤ x))) :=
  _post_process_true_ok h

theorem C3_witness :
    ∃ scores,
      (Outputs.mk (some [(0 : ℚ), 2]) none (some [false, true]) ()).pred_scores =
        some scores ∧
      (Outputs.mk (some [(0 : ℚ), 2]) none (some [false, true]) ()).pred_labels =
        some (scores.map (fun x => decide ((1 : ℚ) ≤ x))) :=
  C3_predict_labels_ge_threshold (fun (_ : Unit) _ => ⟨some [0, 2], none, none, ()⟩)
    ⟨false, 1, ClassificationResults⟩ () 0
    ⟨some [0, 2], none, some [false, true], ()⟩ rfl

/-- C4: when the `pred_scores` key is absent and the `anomaly_maps` key is
present, `_post_process` sets each sample's predicted score to the maximum
value over that sample's anomaly map: the derived score list is, sample by
sample, an element of the map that bounds every element of the map. -/
theorem C4_scores_are_per_sample_maxima {ρ : Type} (t : ℚ) (o : Outputs ρ)
    (maps : List (List ℚ)) (scores : List ℚ)
    (h1 : o.pred_scores = none) (h2 : o.anomaly_maps = some maps)
    (h3 : sampleMaxes maps = Except.ok scores) :
    _post_process t o false = Except.ok { o with pred_scores := some scores } ∧
    List.Forall₂ (fun m v => v ∈ m ∧ ∀ y ∈ m, y ≤ v) maps scores := by
  obtain ⟨ps, am, pls, r⟩ := o
  obtain rfl : ps = none := h1
  obtain rfl : am = some maps := h2
  constructor
  · unfold _post_process derive_scores
    simp only [h3, Except.map, Except.bind]
  · exact (sampleMaxes_ok h3).imp (fun _ _ hab => listMax_spec hab)

theorem C4_witness :
    _post_process (0 : ℚ) (Outputs.mk none (some [[(1 : ℚ), 3], [2]]) none ()) false =
      Except.ok (Outputs.mk (some [(3 : ℚ), 2]) (some [[(1 : ℚ), 3], [2]]) none ()) ∧
    List.Forall₂ (fun m v => v ∈ m ∧ ∀ y ∈ m, y ≤ v)
      [[(1 : ℚ), 3], [2]] [(3 : ℚ), 2] :=
  C4_scores_are_per_sample_maxima 0 ⟨none, some [[1, 3], [2]], none, ()⟩
    [[1, 3], [2]] [3, 2] rfl rfl rfl

/-- C8: `_post_process` changes at most the `pred_scores` and `pred_labels`
keys — the `anomaly_maps` key and every other key keep their original
values; an already-present `pred_scores` value is never overwritten; and
when scores are absent, no anomaly map is present and `predict_labels` is
false, the output equals the input. -/
theorem C8_post_process_frame {ρ : Type} (t : ℚ) (o : Outputs ρ) (pl : Bool) :
    (∀ out, _post_process t o pl = Except.ok out →
      out.anomaly_maps = o.anomaly_maps ∧ out.rest = o.rest ∧
      (∀ s, o.pred_scores = some s → out.pred_scores = some s)) ∧
    (o.pred_scores = none → o.anomaly_maps = none →
      _post_process t o false = Except.ok o) := by
  constructor
  · exact fun out h => _post_process_frame h
  · obtain ⟨ps, am, pls, r⟩ := o
    intro h1 h2
    obtain rfl : ps = none := h1
    obtain rfl : am = none := h2
    rfl

theorem C8_witness :
    (Outputs.mk (some [(1 : ℚ)]) (some [[(5 : ℚ)]]) (some [true]) ()).anomaly_maps =
      some [[(5 : ℚ)]] ∧
    (Outputs.mk (some [(1 : ℚ)]) (some [[(5 : ℚ)]]) (some [true]) ()).pred_scores =
      some [(1 : ℚ)] ∧
    _post_process (0 : ℚ) (Outputs.mk none none none ()) false =
      Except.ok (Outputs.mk none none none ()) :=
  ⟨((C8_post_process_frame 0 ⟨some [1], some [[5]], none, ()⟩ true).1
      ⟨some [1], some [[5]], some [true], ()⟩ rfl).1,
   ((C8_post_process_frame 0 ⟨some [1], some [[5]], none, ()⟩ true).1
      ⟨some [1], some [[5]], some [true], ()⟩ rfl).2.2 [1] rfl,
   (C8_post_process_frame 0 ⟨none, none, none, ()⟩ false).2 rfl rfl⟩

/-- C10: when neither the `pred_scores` nor the `anomaly_maps` key is
present, `_post_process` with label prediction fails with the `KeyError` on
the missing `pred_scores` key; when at least one of the two keys is
present, that error branch is unreachable. -/
theorem C10_label_key_error {ρ : Type} (t : ℚ) (o : Outputs ρ) :
    (o.pred_scores = none → o.anomaly_maps = none →
      _post_process t o true = Except.error PPError.keyError) ∧
    (o.pred_scores.isSome = true ∨ o.anomaly_maps.isSome = true →
      _post_process t o true ≠ Except.error PPError.keyError) := by
  obtain ⟨ps, am, pls, r⟩ := o
  constructor
  · intro h1 h2
    obtain rfl : ps = none := h1
    obtain rfl : am = none := h2
    rfl
  · intro hor
    cases ps with
    | some s => intro hc; cases hc
    | none =>
      cases am with
      | none => simp at hor
      | some maps =>
        intro hc
        unfold _post_process at hc
        rw [derive_scores_none_some] at hc
        cases hsm : sampleMaxes maps with
        | error e =>
          rw [hsm] at hc
          simp only [Except.map, Except.bind, Except.error.injEq] at hc
          subst hc
          exact sampleMaxes_error hsm rfl
        | ok scores =>
          rw [hsm] at hc
          simp only [Except.map, Except.bind] at hc
          cases hc

theorem C10_witness :
    _post_process (0 : ℚ) (Outputs.mk none none none ()) true =
      Except.error PPError.keyError ∧
    _post_process (0 : ℚ) (Outputs.mk (some [(2 : ℚ)]) none none ()) true ≠
      Except.error PPError.keyError :=
  ⟨(C10_label_key_error 0 ⟨none, none, none, ()⟩).1 rfl rfl,
   (C10_label_key_error 0 ⟨some [2], none, none, ()⟩).2 (Or.inl rfl)⟩

end Anomalib
